import Mathlib

/-!
Verification of the SmartResume rendering pipeline.

Shallow embedding of the Python modules `components/pdf_exporter.py`,
`components/preview.py` and `utils/helpers.py`.  Python strings are
modelled as Lean `String`s / `List Char`s, the PDF drawing calls as an
inductive `Block` list, and the live-preview HTML fragments as a `PBlock`
list.  Machine effects do not occur in the modelled fragment except for
`datetime.now()` in the cover-letter renderer, which is made an explicit
`now : String` argument.
-/

namespace SmartResume

/-- Python's `str` whitespace set (the characters stripped by `str.strip()`
and used as separators by no-argument `str.split()`). -/
def pyIsSpace (c : Char) : Bool :=
  c.val == 9 || c.val == 10 || c.val == 11 || c.val == 12 || c.val == 13 ||
  c.val == 28 || c.val == 29 || c.val == 30 || c.val == 31 || c.val == 32 ||
  c.val == 133 || c.val == 160 || c.val == 0x1680 ||
  (0x2000 ≤ c.val && c.val ≤ 0x200a) ||
  c.val == 0x2028 || c.val == 0x2029 || c.val == 0x202f ||
  c.val == 0x205f || c.val == 0x3000

/-- Python `str.strip()` on a character list: drop leading and trailing
whitespace. -/
def pyStripL (l : List Char) : List Char :=
  ((l.dropWhile pyIsSpace).reverse.dropWhile pyIsSpace).reverse

/-- Python `str.strip()` on a `String`. -/
def pyStrip (s : String) : String :=
  String.mk (pyStripL s.data)

/-- Python `str.split(sep)` for a one-character separator `p`-test:
split at every character satisfying `p`, keeping empty segments
(as Python does for an explicit separator). -/
def splitP (p : Char → Bool) : List Char → List (List Char)
  | [] => [[]]
  | c :: rest =>
    if p c then [] :: splitP p rest
    else (c :: (splitP p rest).headI) :: (splitP p rest).tail

/-- Python `str.split("\n\n")`: split at every non-overlapping occurrence
of two consecutive newline characters, scanning left to right. -/
def splitNN : List Char → List (List Char)
  | [] => [[]]
  | [c] => [[c]]
  | c1 :: c2 :: rest =>
    if c1 = '\n' ∧ c2 = '\n' then [] :: splitNN rest
    else (c1 :: (splitNN (c2 :: rest)).headI) :: (splitNN (c2 :: rest)).tail

/-- Whether a character list contains two consecutive newlines. -/
def hasNN : List Char → Bool
  | [] => false
  | [_] => false
  | c1 :: c2 :: rest => (c1 = '\n' && c2 = '\n') || hasNN (c2 :: rest)

/-- One pass of `re.sub(r'\*([^*]+)\*', r'\1', ·)` (with `b = '*'`), resp.
`re.sub(r'_([^_]+)_', r'\1', ·)` (with `b = '_'`): scanning left to right,
a match at a position needs the delimiter `b`, then a maximal nonempty run
of non-`b` characters, then `b` again; the match is replaced by the run and
scanning resumes after it, otherwise the scanner advances one character.
`fuel` bounds the recursion; the callers pass the list length, which
suffices because every step consumes at least one character. -/
def subEmph1 (b : Char) : Nat → List Char → List Char
  | _, [] => []
  | 0, l => l
  | fuel + 1, c :: rest =>
    if c = b then
      match rest.dropWhile (fun x => x != b) with
      | _ :: tail =>
        if (rest.takeWhile (fun x => x != b)).isEmpty then
          c :: subEmph1 b fuel rest
        else
          rest.takeWhile (fun x => x != b) ++ subEmph1 b fuel tail
      | [] => c :: subEmph1 b fuel rest
    else c :: subEmph1 b fuel rest

/-- One pass of `re.sub(r'\*\*([^*]+)\*\*', r'\1', ·)` (with `b = '*'`),
resp. `re.sub(r'__([^_]+)__', r'\1', ·)` (with `b = '_'`): a match needs
`b` twice, a maximal nonempty run of non-`b` characters, then `b` twice
again. -/
def subEmph2 (b : Char) : Nat → List Char → List Char
  | _, [] => []
  | 0, l => l
  | fuel + 1, c :: rest =>
    if c = b then
      match rest with
      | c2 :: rest2 =>
        if c2 = b then
          match rest2.dropWhile (fun x => x != b) with
          | _ :: y :: tail =>
            if (rest2.takeWhile (fun x => x != b)).isEmpty then
              c :: subEmph2 b fuel rest
            else if y = b then
              rest2.takeWhile (fun x => x != b) ++ subEmph2 b fuel tail
            else
              c :: subEmph2 b fuel rest
          | _ => c :: subEmph2 b fuel rest
        else c :: subEmph2 b fuel rest
      | [] => [c]
    else c :: subEmph2 b fuel rest

/-- The `replacements` dict of `sanitize_text`, in insertion order. -/
def replacements : List (Char × String) :=
  [('\u2013', "-"), ('\u2014', "--"), ('\u2018', "'"), ('\u2019', "'"),
   ('\u201c', "\""), ('\u201d', "\""), ('\u2022', "-"), ('\u2026', "..."),
   ('\u00a0', " "), ('\u2122', "(TM)"), ('\u00ae', "(R)"), ('\u00a9', "(c)")]

/-- Python `text.replace(k, v)` for a one-character needle `k`. -/
def replaceChar (k : Char) (v : String) (l : List Char) : List Char :=
  l.flatMap (fun c => if c = k then v.data else [c])

/-- The `for unicode_char, replacement in replacements.items()` loop of
`sanitize_text`. -/
def applyReplacements (l : List Char) : List Char :=
  replacements.foldl (fun acc kv => replaceChar kv.1 kv.2 acc) l

/-- The final `''.join(char if ord(char) < 256 else '?' for char in text)`
step of `sanitize_text`, per character. -/
def latin1Char (c : Char) : Char :=
  if c.val < 256 then c else '?'

/-- `sanitize_text` from `components/pdf_exporter.py`: early-out on falsy
input, four markdown-emphasis substitutions, the Unicode replacement table,
then degradation of remaining characters with code point ≥ 256 to `'?'`. -/
def sanitize_text (s : String) : String :=
  if s = "" then "" else
  let l0 := s.data
  let l1 := subEmph2 '*' l0.length l0
  let l2 := subEmph1 '*' l1.length l1
  let l3 := subEmph2 '_' l2.length l2
  let l4 := subEmph1 '_' l3.length l3
  String.mk ((applyReplacements l4).map latin1Char)

/-- `sanitize_text` on a possibly-`None` argument: `if not text: return ""`
also catches `None`. -/
def sanitize_text_opt : Option String → String
  | none => ""
  | some s => sanitize_text s

example : sanitize_text "a__b_c_" = "a_bc_" := by decide
example : sanitize_text "a_bc_" = "abc" := by decide
example : sanitize_text "**a*b**" = "*ab**" := by decide
example : sanitize_text "*ab**" = "ab*" := by decide
example : sanitize_text "*_*a*_*" = "a" := by decide
example : sanitize_text "\u2013x\u2026" = "-x..." := by decide
example : sanitize_text "\u0394" = "?" := by decide

/-! ### `utils/helpers.py` -/

/-- `format_date_range` from `utils/helpers.py`. -/
def format_date_range (start_date : String) (end_date : Option String)
    (is_current : Bool) : String :=
  if is_current then start_date ++ " - Present"
  else match end_date with
    | some e => if e ≠ "" then start_date ++ " - " ++ e else start_date
    | none => start_date

/-- The ASCII fragment of Python's `str.isalnum()` table: `[0-9A-Za-z]`.
Python's table is Unicode-wide; this fragment agrees with it on every
ASCII character and is used only to evaluate concrete ASCII examples. -/
def asciiAlnum (c : Char) : Bool :=
  c.isAlphanum

/-- Python `str.upper()`, character by character, with the ASCII case
mapping.  Python's mapping is Unicode-wide; this model agrees with it on
ASCII, and every judged statement applies it to ASCII or empty input. -/
def pyUpper (s : String) : String :=
  String.mk (s.data.map Char.toUpper)

/-- The character filter of `generate_filename`:
`c if c.isalnum() or c.isspace() else ''`.  Python's Unicode-wide
`str.isalnum()` is a host primitive (like `datetime.now()`), so the
embedding abstracts it as the explicit parameter `isAlnum`; instantiating
`isAlnum` with Python's actual table yields the program's behaviour, and
`asciiAlnum` is its ASCII fragment for concrete evaluation. -/
def filenameKept (isAlnum : Char → Bool) (name : String) : List Char :=
  name.data.filter (fun c => isAlnum c || pyIsSpace c)

/-- Python no-argument `str.split()`: whitespace-separated words, empty
segments discarded. -/
def pyWords (l : List Char) : List (List Char) :=
  (splitP pyIsSpace l).filter (fun w => w ≠ [])

/-- The words of `filename.split()` in `generate_filename`, for a given
`isalnum` table. -/
def filenameWords (isAlnum : Char → Bool) (name : String) : List (List Char) :=
  pyWords (filenameKept isAlnum name)

/-- `generate_filename` from `utils/helpers.py`: keep alphanumeric and
whitespace characters (per the host `isalnum` table `isAlnum`), rejoin the
whitespace-separated words with `'_'`, append `"_Resume.pdf"`. -/
def generate_filename (isAlnum : Char → Bool) (name : String) : String :=
  String.intercalate "_" ((filenameWords isAlnum name).map String.mk)
    ++ "_Resume.pdf"

/-- `split_skills_string` from `utils/helpers.py`: falsy input gives `[]`;
otherwise split on `','`, strip each piece, drop empty results. -/
def split_skills_string (s : String) : List String :=
  if s = "" then []
  else ((splitP (fun c => c = ',') s.data).map pyStripL).filterMap
    (fun t => if t = [] then none else some (String.mk t))

example : generate_filename asciiAlnum "Jane O'Brien!" = "Jane_OBrien_Resume.pdf" := by
  decide
example : split_skills_string "Python, ,Java," = ["Python", "Java"] := by decide
example : format_date_range "Jan 2020" (some "Dec 2023") true = "Jan 2020 - Present" := by decide

/-! ### Data model

The resume dictionary assembled in `app.py` from the form sections.  The
header scalars are `Option String` because `generate_resume_pdf` reads
them with `dict.get(key, default)`: `none` models an absent key (the
default fires), `some ""` models a present empty form field (the default
does not fire).  The remaining fields are read with a falsy check only,
so a plain `String`/`List` with `""`/`[]` for "absent" is faithful. -/

structure Education where
  degree : String
  field : String
  institution : String
  year : String
  grade : String
  status : Option String
  deriving DecidableEq, Repr

structure Experience where
  company : String
  job_title : String
  location : String
  start_date : String
  end_date : String
  is_current : Bool
  responsibilities : String
  bullet_points : List String
  deriving DecidableEq, Repr

structure Project where
  title : String
  duration : String
  technologies : String
  description : String
  url : String
  bullet_points : List String
  deriving DecidableEq, Repr

structure ResumeData where
  name : Option String
  email : Option String
  phone : Option String
  location : Option String
  linkedin : Option String
  portfolio : Option String
  summary : String
  education_list : List Education
  technical_skills : String
  soft_skills : String
  experience_list : List Experience
  projects_list : List Project
  certifications : String
  deriving DecidableEq, Repr

/-! ### PDF blocks (`generate_resume_pdf`)

Each drawing call of `ResumePDF` becomes one `Block`; vertical spacing
(`pdf.ln`) carries no text and is omitted. -/

inductive Block where
  | HeaderName (text : String)
  | ContactLine (text : String)
  | LinkLine (text : String)
  | SectionTitle (text : String)
  | Text (text : String)
  | Bullet (text : String)
  | Subsection (title : String) (meta : Option String)
  | BoldLabel (text : String)
  | SkillsText (text : String)
  | Desc (text : String)
  | UrlLine (text : String)
  deriving DecidableEq, Repr

/-- `ResumePDF.section_title`: sanitize, then upper-case. -/
def section_title (title : String) : Block :=
  Block.SectionTitle (pyUpper (sanitize_text title))

/-- `ResumePDF.add_subsection`: sanitize title and meta; the meta line is
drawn only when the sanitized meta is truthy. -/
def add_subsection (title meta : String) : Block :=
  Block.Subsection (sanitize_text title)
    (if sanitize_text meta = "" then none else some (sanitize_text meta))

/-- `ResumePDF.header_section`, fed by the `resume_data.get(...)` defaults
of `generate_resume_pdf`. -/
def headerBlocks (doc : ResumeData) : List Block :=
  let name := sanitize_text (doc.name.getD "Your Name")
  let email := sanitize_text (doc.email.getD "email@example.com")
  let phone := sanitize_text (doc.phone.getD "+91-XXXXXXXXXX")
  let location := sanitize_text (doc.location.getD "City, Country")
  let linkedin := sanitize_text (doc.linkedin.getD "")
  let portfolio := sanitize_text (doc.portfolio.getD "")
  [Block.HeaderName (pyUpper name),
   Block.ContactLine (email ++ " | " ++ phone ++ " | " ++ location)] ++
  (if linkedin ≠ "" ∨ portfolio ≠ "" then
    [Block.LinkLine (String.intercalate " | "
      ((if linkedin ≠ "" then [linkedin] else []) ++
       (if portfolio ≠ "" then [portfolio] else [])))]
   else [])

/-- Professional-summary section: drawn iff `summary` is truthy. -/
def summarySection (summary : String) : List Block :=
  if summary ≠ "" then
    [section_title "Professional Summary", Block.Text (sanitize_text summary)]
  else []

/-- One education entry of the Education section. -/
def eduEntryBlocks (edu : Education) : List Block :=
  let status_label := if edu.status.getD "Completed" = "Completed" then "Graduated" else "Expected"
  [add_subsection (edu.degree ++ " in " ++ edu.field)
    (edu.institution ++ " | " ++ status_label ++ ": " ++ edu.year ++ " | Grade: " ++ edu.grade)]

/-- Education section: drawn iff the list is nonempty. -/
def eduSection (l : List Education) : List Block :=
  if l ≠ [] then section_title "Education" :: l.flatMap eduEntryBlocks else []

/-- The `' - '.join(split_skills_string(...))` text drawn for a skills
category. -/
def skillsJoin (s : String) : String :=
  String.intercalate " - " (split_skills_string s)

/-- Skills section: drawn iff either skills string is truthy. -/
def skillsSection (tech soft : String) : List Block :=
  if tech ≠ "" ∨ soft ≠ "" then
    section_title "Skills" ::
    ((if tech ≠ "" then
        [Block.BoldLabel "Technical Skills:", Block.SkillsText (skillsJoin tech)]
      else []) ++
     (if soft ≠ "" then
        [Block.BoldLabel "Soft Skills:", Block.SkillsText (skillsJoin soft)]
      else []))
  else []

/-- The duration f-string of an experience entry:
`f"{exp['start_date']} - {exp['end_date']}"` — `is_current` is not
consulted here. -/
def expDuration (e : Experience) : String :=
  e.start_date ++ " - " ++ e.end_date

/-- The meta line of an experience entry, with the optional location. -/
def expMeta (e : Experience) : String :=
  if e.location ≠ "" then expDuration e ++ " | " ++ e.location else expDuration e

/-- Sentence bullets split from a `responsibilities` text on `'.'`:
each stripped nonempty piece becomes a bullet with the period restored. -/
def respBullets (resp : String) : List Block :=
  if resp ≠ "" then
    (splitP (fun c => c = '.') resp.data).filterMap (fun line =>
      if pyStripL line = [] then none
      else some (Block.Bullet (sanitize_text (String.mk (pyStripL line) ++ "."))))
  else []

/-- The bullets of one experience entry: `bullet_points` when nonempty,
otherwise sentences split from `responsibilities`. -/
def expBullets (e : Experience) : List Block :=
  if e.bullet_points ≠ [] then
    e.bullet_points.map (fun b => Block.Bullet (sanitize_text b))
  else respBullets e.responsibilities

/-- One experience entry: subsection then bullets. -/
def expEntryBlocks (e : Experience) : List Block :=
  add_subsection (e.job_title ++ " | " ++ e.company) (expMeta e) :: expBullets e

/-- Work-experience section: drawn iff the list is nonempty. -/
def expSection (l : List Experience) : List Block :=
  if l ≠ [] then section_title "Work Experience" :: l.flatMap expEntryBlocks else []

/-- One project entry. -/
def projEntryBlocks (p : Project) : List Block :=
  let meta_parts := (if p.duration ≠ "" then [p.duration] else []) ++
    (if p.technologies ≠ "" then ["Technologies: " ++ p.technologies] else [])
  add_subsection p.title
      (if meta_parts ≠ [] then String.intercalate " | " meta_parts else "") ::
  ((if p.bullet_points ≠ [] then
      p.bullet_points.map (fun b => Block.Bullet (sanitize_text b))
    else if p.description ≠ "" then [Block.Desc p.description] else []) ++
   (if p.url ≠ "" then [Block.UrlLine ("URL: " ++ p.url)] else []))

/-- Projects section: drawn iff the list is nonempty. -/
def projSection (l : List Project) : List Block :=
  if l ≠ [] then section_title "Projects" :: l.flatMap projEntryBlocks else []

/-- Certifications section: drawn iff `certifications` is truthy; the
text is split on newlines and each stripped nonempty line becomes a
bullet. -/
def certSection (c : String) : List Block :=
  if c ≠ "" then
    section_title "Certifications & Achievements" ::
    (splitP (fun x => x = '\n') c.data).filterMap (fun line =>
      if pyStripL line = [] then none
      else some (Block.Bullet (sanitize_text (String.mk (pyStripL line)))))
  else []

/-- `generate_resume_pdf` from `components/pdf_exporter.py`, as the list
of drawn blocks. -/
def generateResumePdf (doc : ResumeData) : List Block :=
  headerBlocks doc ++
  summarySection doc.summary ++
  eduSection doc.education_list ++
  skillsSection doc.technical_skills doc.soft_skills ++
  expSection doc.experience_list ++
  projSection doc.projects_list ++
  certSection doc.certifications

/-! ### Live preview (`components/preview.py`)

The HTML fragments emitted by `render_resume_preview`, one `PBlock` per
content div.  The preview applies no sanitization. -/

inductive PBlock where
  | Name (text : String)
  | Contact (text : String)
  | SectionTitle (text : String)
  | Content (text : String)
  | Subtitle (text : String)
  | Meta (text : String)
  | BulletP (text : String)
  | SkillTag (text : String)
  | Desc (text : String)
  | UrlLine (text : String)
  deriving DecidableEq, Repr

/-- Preview header: name div and contact div. -/
def pvHeader (doc : ResumeData) : List PBlock :=
  let name := doc.name.getD "Your Name"
  let email := doc.email.getD "email@example.com"
  let phone := doc.phone.getD "+91-XXXXXXXXXX"
  let location := doc.location.getD "City, Country"
  let linkedin := doc.linkedin.getD ""
  let portfolio := doc.portfolio.getD ""
  [PBlock.Name (pyUpper name),
   PBlock.Contact (String.intercalate " | "
     ([email, phone] ++
      (if linkedin ≠ "" then ["LinkedIn"] else []) ++
      (if portfolio ≠ "" then ["Portfolio"] else []) ++
      [location]))]

/-- Preview professional-summary section. -/
def pvSummary (summary : String) : List PBlock :=
  if summary ≠ "" then
    [PBlock.SectionTitle "PROFESSIONAL SUMMARY", PBlock.Content summary]
  else []

/-- Preview education section. -/
def pvEducation (l : List Education) : List PBlock :=
  if l ≠ [] then
    PBlock.SectionTitle "EDUCATION" :: l.flatMap (fun edu =>
      let status_label := if edu.status.getD "Completed" = "Completed" then "Graduated" else "Expected"
      [PBlock.Subtitle (edu.degree ++ " in " ++ edu.field),
       PBlock.Meta (edu.institution ++ " | " ++ status_label ++ ": " ++ edu.year ++
         " | Grade: " ++ edu.grade)])
  else []

/-- Preview skills section (skill tags instead of a joined line). -/
def pvSkills (tech soft : String) : List PBlock :=
  if tech ≠ "" ∨ soft ≠ "" then
    PBlock.SectionTitle "SKILLS" ::
    ((if tech ≠ "" then
        PBlock.Subtitle "Technical Skills" :: (split_skills_string tech).map PBlock.SkillTag
      else []) ++
     (if soft ≠ "" then
        PBlock.Subtitle "Soft Skills" :: (split_skills_string soft).map PBlock.SkillTag
      else []))
  else []

/-- Preview bullets of one experience entry: same precedence rule as the
PDF, without sanitization. -/
def pvExpBullets (e : Experience) : List PBlock :=
  if e.bullet_points ≠ [] then e.bullet_points.map PBlock.BulletP
  else if e.responsibilities ≠ "" then
    (splitP (fun c => c = '.') e.responsibilities.data).filterMap (fun line =>
      if pyStripL line = [] then none
      else some (PBlock.BulletP (String.mk (pyStripL line) ++ ".")))
  else []

/-- Preview work-experience section. -/
def pvExperience (l : List Experience) : List PBlock :=
  if l ≠ [] then
    PBlock.SectionTitle "WORK EXPERIENCE" :: l.flatMap (fun e =>
      PBlock.Subtitle (e.job_title ++ " | " ++ e.company) ::
      PBlock.Meta (expMeta e) :: pvExpBullets e)
  else []

/-- Preview projects section. -/
def pvProjects (l : List Project) : List PBlock :=
  if l ≠ [] then
    PBlock.SectionTitle "PROJECTS" :: l.flatMap (fun p =>
      let meta_parts := (if p.duration ≠ "" then [p.duration] else []) ++
        (if p.technologies ≠ "" then ["Tech: " ++ p.technologies] else [])
      PBlock.Subtitle p.title ::
      ((if meta_parts ≠ [] then [PBlock.Meta (String.intercalate " | " meta_parts)] else []) ++
       (if p.bullet_points ≠ [] then p.bullet_points.map PBlock.BulletP
        else if p.description ≠ "" then [PBlock.Desc p.description] else []) ++
       (if p.url ≠ "" then [PBlock.UrlLine ("URL: " ++ p.url)] else [])))
  else []

/-- Preview certifications section. -/
def pvCertifications (c : String) : List PBlock :=
  if c ≠ "" then
    PBlock.SectionTitle "CERTIFICATIONS & ACHIEVEMENTS" ::
    (splitP (fun x => x = '\n') c.data).filterMap (fun line =>
      if pyStripL line = [] then none
      else some (PBlock.BulletP (String.mk (pyStripL line))))
  else []

/-- `render_resume_preview` from `components/preview.py`, as the list of
content divs. -/
def renderResumePreview (doc : ResumeData) : List PBlock :=
  pvHeader doc ++
  pvSummary doc.summary ++
  pvEducation doc.education_list ++
  pvSkills doc.technical_skills doc.soft_skills ++
  pvExperience doc.experience_list ++
  pvProjects doc.projects_list ++
  pvCertifications doc.certifications

/-! ### Cover letter (`generate_cover_letter_pdf`)

The function's body reads the system clock (`datetime.now()`); the clock
reading, formatted as `"%B %d, %Y"`, is made an explicit `now` argument of
the embedding. -/

inductive CLBlock where
  | NameLine (text : String)
  | ContactLine (text : String)
  | DateLine (text : String)
  | RecipientLine (text : String)
  | CompanyLine (text : String)
  | SubjectLine (text : String)
  | Salutation (text : String)
  | Para (text : String)
  | ParaGap
  | Closing (text : String)
  | Signature (text : String)
  deriving DecidableEq, Repr

/-- The body paragraphs: sanitize, split on `"\n\n"`, keep the stripped
nonempty pieces. -/
def bodyParagraphs (content : String) : List String :=
  (splitNN (sanitize_text content).data).filterMap (fun p =>
    if pyStripL p = [] then none else some (String.mk (pyStripL p)))

/-- The body region of the cover letter: each kept paragraph is drawn by
`multi_cell` and followed by the fixed `pdf.ln(2.5)` gap. -/
def bodyBlocks (content : String) : List CLBlock :=
  (bodyParagraphs content).flatMap (fun p => [CLBlock.Para p, CLBlock.ParaGap])

/-- `generate_cover_letter_pdf` from `components/pdf_exporter.py`.  The
`now` argument is the embedding of the `datetime.now().strftime("%B %d, %Y")`
call inside the function body: the Python signature has no date parameter. -/
def generateCoverLetterPdf (name email phone location company job_title
    cover_letter_content : String) (now : String) : List CLBlock :=
  CLBlock.NameLine (sanitize_text name) ::
  CLBlock.ContactLine (sanitize_text email ++ " | " ++ sanitize_text phone ++
    (if location ≠ "" then " | " ++ sanitize_text location else "")) ::
  CLBlock.DateLine now ::
  CLBlock.RecipientLine "Hiring Manager" ::
  ((if company ≠ "" then [CLBlock.CompanyLine (sanitize_text company)] else []) ++
   (CLBlock.SubjectLine ("Re: Application for " ++ sanitize_text job_title) ::
    CLBlock.Salutation "Dear Hiring Manager," ::
    (bodyBlocks cover_letter_content ++
     [CLBlock.Closing "Sincerely,", CLBlock.Signature (sanitize_text name)])))

example : bodyParagraphs "Para one.\n\nPara two." = ["Para one.", "Para two."] := by decide

/-! ### Supporting lemmas -/

theorem dropWhile_idem {α} (p : α → Bool) (l : List α) :
    (l.dropWhile p).dropWhile p = l.dropWhile p := by
  cases h : l.dropWhile p with
  | nil => rfl
  | cons c t =>
    have hc := List.head?_dropWhile_not p l
    rw [h] at hc
    simp only [List.head?_cons] at hc
    exact List.dropWhile_cons_of_neg (by simp [hc])

theorem getLast?_dropWhile_of_ne_nil {α} (p : α → Bool) :
    ∀ l : List α, l.dropWhile p ≠ [] → (l.dropWhile p).getLast? = l.getLast? := by
  intro l
  induction l with
  | nil => intro h; simp [List.dropWhile] at h
  | cons c rest ih =>
    intro h
    by_cases hc : p c
    · rw [List.dropWhile_cons_of_pos hc] at h ⊢
      have hr : rest ≠ [] := by
        rintro rfl; simp [List.dropWhile] at h
      rw [ih h]
      cases rest with
      | nil => exact absurd rfl hr
      | cons d t => simp
    · rw [List.dropWhile_cons_of_neg hc]

theorem pyStripL_idem (l : List Char) : pyStripL (pyStripL l) = pyStripL l := by
  unfold pyStripL
  by_cases hX : (l.dropWhile pyIsSpace).reverse.dropWhile pyIsSpace = []
  · simp [hX, List.dropWhile]
  · have h1 : ((l.dropWhile pyIsSpace).reverse.dropWhile pyIsSpace).reverse.dropWhile
        pyIsSpace = ((l.dropWhile pyIsSpace).reverse.dropWhile pyIsSpace).reverse := by
      cases hXr : ((l.dropWhile pyIsSpace).reverse.dropWhile pyIsSpace).reverse with
      | nil => simp
      | cons c t =>
        apply List.dropWhile_cons_of_neg
        have hcc : some c = (l.dropWhile pyIsSpace).head? := by
          have e1 : ((l.dropWhile pyIsSpace).reverse.dropWhile pyIsSpace).reverse.head? =
              some c := by rw [hXr]; rfl
          rw [List.head?_reverse, getLast?_dropWhile_of_ne_nil _ _ hX,
            List.getLast?_reverse] at e1
          exact e1.symm
        cases hm : l.dropWhile pyIsSpace with
        | nil =>
          rw [hm] at hX; simp [List.dropWhile] at hX
        | cons d s =>
          have hd := List.head?_dropWhile_not pyIsSpace l
          rw [hm] at hd hcc
          simp only [List.head?_cons, Option.some.injEq] at hd hcc
          simp [hcc, hd]
    rw [h1, List.reverse_reverse, dropWhile_idem]

theorem splitP_ne_nil (p : Char → Bool) (l : List Char) : splitP p l ≠ [] := by
  cases l with
  | nil => simp [splitP]
  | cons c rest => simp only [splitP]; split <;> simp

theorem mem_splitP (p : Char → Bool) :
    ∀ l w, w ∈ splitP p l → ∀ c ∈ w, p c = false ∧ c ∈ l := by
  intro l
  induction l with
  | nil =>
    intro w hw c hc
    simp [splitP] at hw
    subst hw
    simp at hc
  | cons a rest ih =>
    intro w hw c hc
    simp only [splitP] at hw
    by_cases ha : p a
    · rw [if_pos ha] at hw
      rcases List.mem_cons.mp hw with h | h
      · subst h; simp at hc
      · obtain ⟨h1, h2⟩ := ih w h c hc
        exact ⟨h1, List.mem_cons_of_mem _ h2⟩
    · rw [if_neg ha] at hw
      rcases List.mem_cons.mp hw with h | h
      · subst h
        rcases List.mem_cons.mp hc with h | h
        · subst h
          exact ⟨by simpa using ha, List.mem_cons_self _ _⟩
        · cases hsp : splitP p rest with
          | nil => exact absurd hsp (splitP_ne_nil p rest)
          | cons w0 ws =>
            rw [hsp] at h
            simp only [List.headI_cons] at h
            obtain ⟨h1, h2⟩ := ih w0 (by rw [hsp]; exact List.mem_cons_self _ _) c h
            exact ⟨h1, List.mem_cons_of_mem _ h2⟩
      · obtain ⟨h1, h2⟩ := ih w (List.mem_of_mem_tail h) c hc
        exact ⟨h1, List.mem_cons_of_mem _ h2⟩

theorem splitNN_of_not_hasNN : ∀ l : List Char, hasNN l = false → splitNN l = [l] := by
  intro l
  induction l with
  | nil => intro _; rfl
  | cons c1 tail ih =>
    intro h
    cases tail with
    | nil => rfl
    | cons c2 rest =>
      simp only [hasNN, Bool.or_eq_false_iff, Bool.and_eq_false_iff] at h
      have hnn : ¬ (c1 = '\n' ∧ c2 = '\n') := by
        rintro ⟨rfl, rfl⟩
        rcases h.1 with h' | h' <;> simp at h'
      have htail : splitNN (c2 :: rest) = [c2 :: rest] := ih (by
        have := h.2
        simpa [hasNN] using this)
      simp only [splitNN, if_neg hnn, htail, List.headI_cons, List.tail_cons]

theorem noMark1 (b : Char) :
    ∀ fuel l, (∀ c ∈ l, c ≠ b) → l.length ≤ fuel → subEmph1 b fuel l = l := by
  intro fuel
  induction fuel with
  | zero =>
    intro l _ hlen
    interval_cases h : l.length
    · rw [List.length_eq_zero] at h; subst h; rfl
  | succ n ih =>
    intro l hl hlen
    cases l with
    | nil => rfl
    | cons c rest =>
      have hc : c ≠ b := hl c (List.mem_cons_self _ _)
      simp only [subEmph1, if_neg hc]
      rw [ih rest (fun x hx => hl x (List.mem_cons_of_mem _ hx))
        (by simpa using Nat.succ_le_succ_iff.mp hlen)]

theorem noMark2 (b : Char) :
    ∀ fuel l, (∀ c ∈ l, c ≠ b) → l.length ≤ fuel → subEmph2 b fuel l = l := by
  intro fuel
  induction fuel with
  | zero =>
    intro l _ hlen
    interval_cases h : l.length
    · rw [List.length_eq_zero] at h; subst h; rfl
  | succ n ih =>
    intro l hl hlen
    cases l with
    | nil => rfl
    | cons c rest =>
      have hc : c ≠ b := hl c (List.mem_cons_self _ _)
      simp only [subEmph2, if_neg hc]
      rw [ih rest (fun x hx => hl x (List.mem_cons_of_mem _ hx))
        (by simpa using Nat.succ_le_succ_iff.mp hlen)]

theorem mem_replaceChar {c k : Char} {v : String} {l : List Char} :
    c ∈ replaceChar k v l → c ∈ v.data ∨ (c ∈ l ∧ c ≠ k) := by
  intro h
  simp only [replaceChar, List.mem_flatMap] at h
  obtain ⟨a, ha, hc⟩ := h
  by_cases hak : a = k
  · rw [if_pos hak] at hc
    exact Or.inl hc
  · rw [if_neg hak] at hc
    simp only [List.mem_singleton] at hc
    subst hc
    exact Or.inr ⟨ha, hak⟩

theorem replaceChar_id {k : Char} {v : String} {l : List Char} (h : k ∉ l) :
    replaceChar k v l = l := by
  induction l with
  | nil => rfl
  | cons a rest ih =>
    have hak : a ≠ k := by rintro rfl; exact h (List.mem_cons_self _ _)
    simp only [replaceChar, List.flatMap_cons, if_neg hak]
    have := ih (fun hk => h (List.mem_cons_of_mem _ hk))
    simp only [replaceChar] at this
    rw [this]
    rfl

theorem mem_foldl_replace :
    ∀ (ps : List (Char × String)) (l : List Char) (c : Char),
      c ∈ List.foldl (fun acc kv => replaceChar kv.1 kv.2 acc) l ps →
      c ∈ l ∨ ∃ kv ∈ ps, c ∈ kv.2.data := by
  intro ps
  induction ps with
  | nil => intro l c h; exact Or.inl h
  | cons p tl ih =>
    intro l c h
    simp only [List.foldl_cons] at h
    rcases ih _ c h with h' | ⟨kv, hkv, hc⟩
    · rcases mem_replaceChar h' with h'' | ⟨h'', _⟩
      · exact Or.inr ⟨p, List.mem_cons_self _ _, h''⟩
      · exact Or.inl h''
    · exact Or.inr ⟨kv, List.mem_cons_of_mem _ hkv, hc⟩

theorem foldl_replace_id :
    ∀ (ps : List (Char × String)) (l : List Char),
      (∀ kv ∈ ps, kv.1 ∉ l) →
      List.foldl (fun acc kv => replaceChar kv.1 kv.2 acc) l ps = l := by
  intro ps
  induction ps with
  | nil => intro l _; rfl
  | cons p tl ih =>
    intro l h
    simp only [List.foldl_cons]
    rw [replaceChar_id (h p (List.mem_cons_self _ _))]
    exact ih l (fun kv hkv => h kv (List.mem_cons_of_mem _ hkv))

theorem not_mem_foldl_replace {c : Char} {ps : List (Char × String)} {l : List Char}
    (h1 : c ∉ l) (h2 : ∀ kv ∈ ps, c ∉ kv.2.data) :
    c ∉ List.foldl (fun acc kv => replaceChar kv.1 kv.2 acc) l ps := by
  intro h
  rcases mem_foldl_replace ps l c h with h' | ⟨kv, hkv, hc⟩
  · exact h1 h'
  · exact h2 kv hkv hc

theorem key_killed :
    ∀ (ps : List (Char × String)) (l : List Char) (k : Char),
      (∃ v, (k, v) ∈ ps) → (∀ kv ∈ ps, k ∉ kv.2.data) →
      k ∉ List.foldl (fun acc kv => replaceChar kv.1 kv.2 acc) l ps := by
  intro ps
  induction ps with
  | nil => rintro l k ⟨v, hv⟩ _; simp at hv
  | cons p tl ih =>
    rintro l k ⟨v, hv⟩ h2
    simp only [List.foldl_cons]
    by_cases hpk : p.1 = k
    · have hknv : k ∉ replaceChar p.1 p.2 l := by
        intro hk
        rcases mem_replaceChar hk with h' | ⟨_, h'⟩
        · exact h2 p (List.mem_cons_self _ _) h'
        · exact h' hpk.symm
      exact not_mem_foldl_replace hknv (fun kv hkv => h2 kv (List.mem_cons_of_mem _ hkv))
    · have hvtl : (k, v) ∈ tl := by
        rcases List.mem_cons.mp hv with h' | h'
        · exact absurd (congrArg Prod.fst h'.symm) hpk
        · exact h'
      exact ih _ k ⟨v, hvtl⟩ (fun kv hkv => h2 kv (List.mem_cons_of_mem _ hkv))

theorem mem_latin1_lt {c : Char} {l : List Char} (h : c ∈ l.map latin1Char) :
    c.val < 256 := by
  simp only [List.mem_map] at h
  obtain ⟨a, _, ha⟩ := h
  subst ha
  unfold latin1Char
  split
  · assumption
  · decide

theorem latin1_map_id {l : List Char} (h : ∀ c ∈ l, c.val < 256) :
    l.map latin1Char = l := by
  induction l with
  | nil => rfl
  | cons a rest ih =>
    simp only [List.map_cons]
    rw [ih (fun c hc => h c (List.mem_cons_of_mem _ hc))]
    unfold latin1Char
    rw [if_pos (h a (List.mem_cons_self _ _))]

theorem mem_of_mem_latin1 {c : Char} {l : List Char} (h : c ∈ l.map latin1Char) :
    c = '?' ∨ c ∈ l := by
  simp only [List.mem_map] at h
  obtain ⟨a, ha, hc⟩ := h
  subst hc
  unfold latin1Char
  split
  · exact Or.inr ha
  · exact Or.inl rfl

/-- On a string with no `'*'` and no `'_'`, the four markdown passes of
`sanitize_text` are the identity, so only the replacement table and the
Latin-1 degradation act. -/
theorem sanitize_eq_of_markfree {s : String} (h : ∀ c ∈ s.data, c ≠ '*' ∧ c ≠ '_') :
    sanitize_text s = String.mk ((applyReplacements s.data).map latin1Char) := by
  by_cases hs : s = ""
  · subst hs; decide
  · unfold sanitize_text
    rw [if_neg hs]
    dsimp only
    have hstar : ∀ c ∈ s.data, c ≠ '*' := fun c hc => (h c hc).1
    have huscore : ∀ c ∈ s.data, c ≠ '_' := fun c hc => (h c hc).2
    rw [noMark2 '*' s.data.length s.data hstar (Nat.le_refl _)]
    rw [noMark1 '*' s.data.length s.data hstar (Nat.le_refl _)]
    rw [noMark2 '_' s.data.length s.data huscore (Nat.le_refl _)]
    rw [noMark1 '_' s.data.length s.data huscore (Nat.le_refl _)]

/-- Tokens of `split_skills_string` are nonempty and strip-stable. -/
theorem split_skills_token {s t : String} (h : t ∈ split_skills_string s) :
    t ≠ "" ∧ pyStrip t = t := by
  unfold split_skills_string at h
  split at h
  · simp at h
  · rw [List.mem_filterMap] at h
    obtain ⟨u, hu, he⟩ := h
    split at he
    · exact absurd he (by simp)
    · rename_i hune
      have ht : t = String.mk u := (Option.some.injEq _ _).mp he |>.symm
      rw [List.mem_map] at hu
      obtain ⟨v, _, hv⟩ := hu
      constructor
      · intro he2
        apply hune
        have := congrArg String.data (ht ▸ he2)
        simpa using this
      · rw [ht]
        show String.mk (pyStripL u) = String.mk u
        rw [← hv, pyStripL_idem]

/-! ### Claim theorems -/

theorem applyReplacements_id {l : List Char}
    (h : ∀ kv ∈ replacements, kv.1 ∉ l) : applyReplacements l = l :=
  foldl_replace_id replacements l h

theorem sanitize_mk_eq_of_markfree (l : List Char)
    (h : ∀ c ∈ l, c ≠ '*' ∧ c ≠ '_') :
    sanitize_text (String.mk l) = String.mk ((applyReplacements l).map latin1Char) :=
  sanitize_eq_of_markfree (s := String.mk l) h

/-- C1 (amended): `sanitize_text` is not idempotent in general, but it is
idempotent on every string containing neither `'*'` nor `'_'` (the
markdown marker characters on which the one-pass emphasis removal can
leave freshly formed patterns). -/
theorem claim_C1_sanitize_idem_marker_free (s : String)
    (h : ∀ c ∈ s.data, c ≠ '*' ∧ c ≠ '_') :
    sanitize_text (sanitize_text s) = sanitize_text s := by
  have hval : ∀ kv ∈ replacements, ∀ c ∈ kv.2.data, c ≠ '*' ∧ c ≠ '_' := by decide
  have hkeyval : ∀ kv ∈ replacements, ∀ kv' ∈ replacements, kv.1 ∉ kv'.2.data := by decide
  have hkeyq : ∀ kv ∈ replacements, kv.1 ≠ '?' := by decide
  have e1 := sanitize_eq_of_markfree h
  have hmf : ∀ c ∈ (applyReplacements s.data).map latin1Char, c ≠ '*' ∧ c ≠ '_' := by
    intro c hc
    rcases mem_of_mem_latin1 hc with rfl | hc'
    · exact ⟨by decide, by decide⟩
    · rcases mem_foldl_replace _ _ _ hc' with h1 | ⟨kv, hkv, h2⟩
      · exact h c h1
      · exact hval kv hkv c h2
  have e2 := sanitize_mk_eq_of_markfree ((applyReplacements s.data).map latin1Char) hmf
  have hkeys : ∀ kv ∈ replacements, kv.1 ∉ (applyReplacements s.data).map latin1Char := by
    intro kv hkv hm
    by_cases hlt : kv.1.val < 256
    · rcases mem_of_mem_latin1 hm with he | hm'
      · exact hkeyq kv hkv he
      · exact key_killed replacements s.data kv.1 ⟨kv.2, by simpa using hkv⟩
          (fun kv' hkv' => hkeyval kv hkv kv' hkv') hm'
    · exact hlt (mem_latin1_lt hm)
  have hlist : (applyReplacements ((applyReplacements s.data).map latin1Char)).map
      latin1Char = (applyReplacements s.data).map latin1Char := by
    rw [applyReplacements_id hkeys]
    exact latin1_map_id (fun c hc => mem_latin1_lt hc)
  rw [e1, e2]
  exact congrArg String.mk hlist

/-- C1 counterexample: on `"a__b_c_"` the first pass leaves `"a_bc_"`,
which a second pass reduces further to `"abc"`, so
`sanitize(sanitize(x)) ≠ sanitize(x)`. -/
theorem claim_C1_counterexample :
    sanitize_text (sanitize_text "a__b_c_") ≠ sanitize_text "a__b_c_" := by decide

/-- C1 witness: idempotence at a concrete marker-free string. -/
theorem claim_C1_witness :
    sanitize_text (sanitize_text "Led a team of 5 engineers.") =
      sanitize_text "Led a team of 5 engineers." :=
  claim_C1_sanitize_idem_marker_free "Led a team of 5 engineers." (by decide)

/-- C2: every character of `sanitize_text`'s output has code point < 256;
`None` and `""` inputs yield `""`; an unmapped character (here `'Δ'`) is
degraded to `'?'` rather than failing. -/
theorem claim_C2_sanitize_latin1_total :
    (∀ s : String, ∀ c ∈ (sanitize_text s).data, c.val < 256) ∧
    sanitize_text_opt none = "" ∧ sanitize_text_opt (some "") = "" ∧
    sanitize_text "\u0394\u03bb" = "??" := by
  refine ⟨?_, rfl, by decide, by decide⟩
  intro s c hc
  unfold sanitize_text at hc
  split at hc
  · rw [show ("" : String).data = [] from rfl] at hc
    exact absurd hc (List.not_mem_nil c)
  · dsimp only at hc
    exact mem_latin1_lt hc

/-- C2 witness: a concrete character of a concrete sanitized output. -/
theorem claim_C2_witness : ('L' : Char).val < 256 :=
  claim_C2_sanitize_latin1_total.1 "L\u00e1b*" 'L' (by decide)

/-- C4: an experience entry with nonempty `bullet_points` renders exactly
one bullet per element (and nothing from `responsibilities`); with empty
`bullet_points` the sentences split from `responsibilities` render
instead — a strict either/or. -/
theorem claim_C4_bullet_precedence (e : Experience) :
    (e.bullet_points ≠ [] →
      expEntryBlocks e =
        add_subsection (e.job_title ++ " | " ++ e.company) (expMeta e) ::
          e.bullet_points.map (fun b => Block.Bullet (sanitize_text b)) ∧
      (expBullets e).length = e.bullet_points.length) ∧
    (e.bullet_points = [] →
      expEntryBlocks e =
        add_subsection (e.job_title ++ " | " ++ e.company) (expMeta e) ::
          respBullets e.responsibilities) := by
  constructor
  · intro h
    constructor
    · simp only [expEntryBlocks, expBullets, if_pos h]
    · simp only [expBullets, if_pos h, List.length_map]
  · intro h
    simp only [expEntryBlocks, expBullets, h]
    simp

/-- A concrete experience entry with explicit bullets (used for C4). -/
def expWithBullets : Experience :=
  { company := "Acme", job_title := "Dev", location := "",
    start_date := "Jan 2020", end_date := "Dec 2021", is_current := false,
    responsibilities := "Built APIs. Led team.",
    bullet_points := ["Shipped v1"] }

/-- C4 witness: a concrete entry with bullets renders the bullets, not the
responsibility sentences. -/
theorem claim_C4_witness :
    expEntryBlocks expWithBullets =
      add_subsection (expWithBullets.job_title ++ " | " ++ expWithBullets.company)
          (expMeta expWithBullets) ::
        expWithBullets.bullet_points.map (fun b => Block.Bullet (sanitize_text b)) :=
  ((claim_C4_bullet_precedence expWithBullets).1 (by decide)).1

/-- A concrete current position carrying a verbatim end date (for C5). -/
def expCurrentWithEndDate : Experience :=
  { company := "Acme", job_title := "Dev", location := "",
    start_date := "Jan 2020", end_date := "Dec 2023", is_current := true,
    responsibilities := "", bullet_points := [] }

/-- C5 counterexample: an entry with `is_current = true` and a supplied
`end_date` renders a meta line using the `end_date` verbatim, which does
not end in `"- Present"`. -/
theorem claim_C5_counterexample :
    expCurrentWithEndDate.is_current = true ∧
    expEntryBlocks expCurrentWithEndDate =
      [Block.Subsection "Dev | Acme" (some "Jan 2020 - Dec 2023")] ∧
    ("- Present".data.isSuffixOf "Jan 2020 - Dec 2023".data) = false := by decide

/-- C5 (amended): `generate_resume_pdf` formats the meta line as
`"{start_date} - {end_date}"` verbatim, ignoring `is_current`; the line
ends in `"- Present"` exactly when the stored `end_date` is `"Present"`
(which the input form guarantees for current positions), and the helper
`format_date_range` does substitute `"Present"` when `is_current`. -/
theorem claim_C5_end_date_verbatim (e : Experience) :
    expDuration e = e.start_date ++ " - " ++ e.end_date ∧
    (e.end_date = "Present" → expDuration e = e.start_date ++ " - Present") ∧
    (∀ s ed, format_date_range s ed true = s ++ " - Present") := by
  refine ⟨rfl, ?_, fun s ed => rfl⟩
  intro h
  unfold expDuration
  rw [h, String.append_assoc]
  congr 1

/-- A concrete current position whose stored end date is "Present" (as the
form stores it), for C5. -/
def expCurrentPresent : Experience :=
  { company := "Acme", job_title := "Dev", location := "",
    start_date := "Jan 2020", end_date := "Present", is_current := true,
    responsibilities := "", bullet_points := [] }

/-- C5 witness: the amended statement at a concrete entry. -/
theorem claim_C5_witness :
    expDuration expCurrentPresent = expCurrentPresent.start_date ++ " - Present" :=
  (claim_C5_end_date_verbatim expCurrentPresent).2.1 rfl

/-- C6 (amended): `generate_cover_letter_pdf` reads the system clock via
`datetime.now()` inside its body (no date parameter exists); its output is
a deterministic function of the arguments *and* the clock date, which is
drawn verbatim as the third block. -/
theorem claim_C6_clock_dependence (name email phone location company job_title
    content now : String) :
    ∃ c rest,
      generateCoverLetterPdf name email phone location company job_title content now =
        CLBlock.NameLine (sanitize_text name) :: CLBlock.ContactLine c ::
          CLBlock.DateLine now :: rest :=
  ⟨_, _, rfl⟩

/-- C6 counterexample: identical arguments, different clock dates, different
output — refuting "two invocations with identical inputs yield identical
output bytes". -/
theorem claim_C6_counterexample :
    generateCoverLetterPdf "Jane" "j@x.com" "123" "" "Acme" "Dev" "Body."
        "January 01, 2025" ≠
      generateCoverLetterPdf "Jane" "j@x.com" "123" "" "Acme" "Dev" "Body."
        "January 02, 2025" := by decide

/-- C7: the cover-letter body is split into paragraphs solely on the
blank-line delimiter `"\n\n"`: the two-paragraph example renders exactly
two `Para` blocks each followed by the fixed gap, and a body whose
sanitized text has no `"\n\n"` yields at most one paragraph (a single
newline never creates a break). -/
theorem claim_C7_paragraph_split :
    bodyBlocks "Para one.\n\nPara two." =
      [CLBlock.Para "Para one.", CLBlock.ParaGap,
       CLBlock.Para "Para two.", CLBlock.ParaGap] ∧
    bodyParagraphs "Para one.\n\nPara two." = ["Para one.", "Para two."] ∧
    (∀ content, hasNN (sanitize_text content).data = false →
      (bodyParagraphs content).length ≤ 1) := by
  refine ⟨by decide, by decide, ?_⟩
  intro content h
  unfold bodyParagraphs
  rw [splitNN_of_not_hasNN _ h]
  simp only [List.filterMap]
  split <;> simp

/-- C7 witness: a single-newline body yields at most one paragraph. -/
theorem claim_C7_witness : (bodyParagraphs "Hello\nworld").length ≤ 1 :=
  claim_C7_paragraph_split.2.2 "Hello\nworld" (by decide)

/-- C8: for every `isalnum` table (hence in particular Python's actual
Unicode-wide one) and every name, the resume filename keeps only the
alphanumeric/whitespace characters of the name, joins the
whitespace-separated words with `'_'` and appends `"_Resume.pdf"`, and
every joined word is nonempty and purely alphanumeric, drawn from the
name's characters; any table agreeing with Python's on the characters of
`"Jane O'Brien!"` (all ASCII) yields `"Jane_OBrien_Resume.pdf"` there. -/
theorem claim_C8_filename_derivation :
    (∀ isAlnum : Char → Bool,
      (∀ c ∈ ("Jane O'Brien!" : String).data, isAlnum c = asciiAlnum c) →
      generate_filename isAlnum "Jane O'Brien!" = "Jane_OBrien_Resume.pdf") ∧
    (∀ isAlnum name, generate_filename isAlnum name =
      String.intercalate "_" ((filenameWords isAlnum name).map String.mk) ++
        "_Resume.pdf") ∧
    (∀ isAlnum name w, w ∈ filenameWords isAlnum name →
      w ≠ [] ∧ ∀ c ∈ w, isAlnum c = true ∧ c ∈ name.data) := by
  refine ⟨?_, fun isAlnum name => rfl, ?_⟩
  · intro isAlnum h
    have hk : filenameKept isAlnum "Jane O'Brien!" =
        filenameKept asciiAlnum "Jane O'Brien!" := by
      unfold filenameKept
      exact List.filter_congr (fun c hc => by rw [h c hc])
    unfold generate_filename filenameWords
    rw [hk]
    decide
  · intro isAlnum name w hw
    unfold filenameWords pyWords at hw
    rw [List.mem_filter] at hw
    obtain ⟨hsp, hne⟩ := hw
    refine ⟨by simpa using hne, ?_⟩
    intro c hc
    obtain ⟨h1, h2⟩ := mem_splitP pyIsSpace _ w hsp c hc
    unfold filenameKept at h2
    rw [List.mem_filter] at h2
    obtain ⟨h3, h4⟩ := h2
    refine ⟨?_, h3⟩
    rcases Bool.or_eq_true_iff.mp h4 with h5 | h5
    · exact h5
    · rw [h1] at h5
      exact absurd h5 (by simp)

/-- C8 witness: the concrete filename and the word facts, with the table
instantiated at the ASCII fragment and every hypothesis discharged. -/
theorem claim_C8_witness :
    generate_filename asciiAlnum "Jane O'Brien!" = "Jane_OBrien_Resume.pdf" ∧
    ((['J', 'a', 'n', 'e'] : List Char) ≠ [] ∧
     ∀ c ∈ (['J', 'a', 'n', 'e'] : List Char),
       asciiAlnum c = true ∧ c ∈ ("Jane O'Brien!" : String).data) :=
  ⟨claim_C8_filename_derivation.1 asciiAlnum (fun c _ => rfl),
   claim_C8_filename_derivation.2.2 asciiAlnum "Jane O'Brien!" ['J', 'a', 'n', 'e']
     (by decide)⟩

/-- C10: `split_skills_string` returns the comma-separated tokens, trimmed
and with empty tokens removed; `"Python, ,Java,"` yields
`["Python", "Java"]`; and the rendered skills line is the `" - "`-join of
tokens all of which are nonempty and strip-stable. -/
theorem claim_C10_skills_tokenization :
    (∀ s t, t ∈ split_skills_string s → t ≠ "" ∧ pyStrip t = t) ∧
    split_skills_string "Python, ,Java," = ["Python", "Java"] ∧
    (∀ s, ∃ toks, skillsJoin s = String.intercalate " - " toks ∧
      ∀ t ∈ toks, t ≠ "" ∧ pyStrip t = t) := by
  refine ⟨fun s t h => split_skills_token h, by decide, ?_⟩
  intro s
  exact ⟨split_skills_string s, rfl, fun t ht => split_skills_token ht⟩

/-- C10 witness: the token facts at a concrete skills string. -/
theorem claim_C10_witness :
    ("Python" : String) ≠ "" ∧ pyStrip "Python" = "Python" :=
  claim_C10_skills_tokenization.1 "Python, ,Java," "Python" (by decide)

/-- C3 (amended): a section whose source list is empty or whose source
text is the *empty string* contributes zero blocks (hence no heading) in
both the PDF renderer and the live preview, and a document with all
sections empty renders only its header; but the inclusion check is Python
truthiness, not trimming, so a *whitespace-only* text field does produce
its heading (see the counterexample). -/
theorem claim_C3_empty_sections_omitted (doc : ResumeData) :
    (doc.summary = "" →
      summarySection doc.summary = [] ∧ pvSummary doc.summary = []) ∧
    (doc.education_list = [] →
      eduSection doc.education_list = [] ∧ pvEducation doc.education_list = []) ∧
    (doc.technical_skills = "" → doc.soft_skills = "" →
      skillsSection doc.technical_skills doc.soft_skills = [] ∧
      pvSkills doc.technical_skills doc.soft_skills = []) ∧
    (doc.experience_list = [] →
      expSection doc.experience_list = [] ∧ pvExperience doc.experience_list = []) ∧
    (doc.projects_list = [] →
      projSection doc.projects_list = [] ∧ pvProjects doc.projects_list = []) ∧
    (doc.certifications = "" →
      certSection doc.certifications = [] ∧
      pvCertifications doc.certifications = []) ∧
    (doc.summary = "" → doc.education_list = [] → doc.technical_skills = "" →
      doc.soft_skills = "" → doc.experience_list = [] → doc.projects_list = [] →
      doc.certifications = "" →
      generateResumePdf doc = headerBlocks doc ∧
      renderResumePreview doc = pvHeader doc) := by
  refine ⟨?_, ?_, ?_, ?_, ?_, ?_, ?_⟩
  · intro h; rw [h]; exact ⟨by simp [summarySection], by simp [pvSummary]⟩
  · intro h; rw [h]; exact ⟨by simp [eduSection], by simp [pvEducation]⟩
  · intro h1 h2; rw [h1, h2]
    exact ⟨by simp [skillsSection], by simp [pvSkills]⟩
  · intro h; rw [h]; exact ⟨by simp [expSection], by simp [pvExperience]⟩
  · intro h; rw [h]; exact ⟨by simp [projSection], by simp [pvProjects]⟩
  · intro h; rw [h]; exact ⟨by simp [certSection], by simp [pvCertifications]⟩
  · intro h1 h2 h3 h4 h5 h6 h7
    constructor
    · unfold generateResumePdf
      rw [h1, h2, h3, h4, h5, h6, h7]
      simp [summarySection, eduSection, skillsSection, expSection, projSection,
        certSection]
    · unfold renderResumePreview
      rw [h1, h2, h3, h4, h5, h6, h7]
      simp [pvSummary, pvEducation, pvSkills, pvExperience, pvProjects,
        pvCertifications]

/-- A document whose summary is whitespace-only and all other sections are
empty (used to refute the all-whitespace part of C3). -/
def docWhitespaceSummary : ResumeData :=
  { name := some "Jane", email := some "j@x.com", phone := none, location := none,
    linkedin := none, portfolio := none, summary := " ", education_list := [],
    technical_skills := "", soft_skills := "", experience_list := [],
    projects_list := [], certifications := "" }

/-- C3 counterexample: a whitespace-only summary *does* draw the
"PROFESSIONAL SUMMARY" heading, in both the PDF and the preview. -/
theorem claim_C3_counterexample :
    pyStrip docWhitespaceSummary.summary = "" ∧
    Block.SectionTitle "PROFESSIONAL SUMMARY" ∈ generateResumePdf docWhitespaceSummary ∧
    PBlock.SectionTitle "PROFESSIONAL SUMMARY" ∈
      renderResumePreview docWhitespaceSummary := by decide

/-- A document with every section source empty (used for the C3 witness). -/
def docAllEmpty : ResumeData :=
  { name := some "Jane", email := some "j@x.com", phone := none, location := none,
    linkedin := none, portfolio := none, summary := "", education_list := [],
    technical_skills := "", soft_skills := "", experience_list := [],
    projects_list := [], certifications := "" }

/-- C3 witness: the amended statement at a concrete document. -/
theorem claim_C3_witness :
    summarySection docAllEmpty.summary = [] ∧ pvSummary docAllEmpty.summary = [] :=
  (claim_C3_empty_sections_omitted docAllEmpty).1 rfl

/-- The first two blocks `generate_resume_pdf` draws, for any document. -/
theorem generateResumePdf_head (doc : ResumeData) :
    ∃ rest, generateResumePdf doc =
      Block.HeaderName (pyUpper (sanitize_text (doc.name.getD "Your Name"))) ::
      Block.ContactLine (sanitize_text (doc.email.getD "email@example.com") ++ " | " ++
        sanitize_text (doc.phone.getD "+91-XXXXXXXXXX") ++ " | " ++
        sanitize_text (doc.location.getD "City, Country")) :: rest :=
  ⟨_, rfl⟩

/-- C9: with name and email both empty (`""` values) the renderer still
produces the full block list, headed by an empty header name — it does not
enforce the caller's non-empty precondition; with name and email *absent*
the placeholder values `"Your Name"`/`"email@example.com"` are used. -/
theorem claim_C9_renders_with_placeholders (doc : ResumeData) :
    (doc.name = some "" → doc.email = some "" →
      ∃ c rest, generateResumePdf doc =
        Block.HeaderName "" :: Block.ContactLine c :: rest) ∧
    (doc.name = none → doc.email = none →
      ∃ t rest, generateResumePdf doc =
        Block.HeaderName "YOUR NAME" ::
          Block.ContactLine ("email@example.com | " ++ t) :: rest) := by
  obtain ⟨rest, hr⟩ := generateResumePdf_head doc
  constructor
  · intro hn he
    rw [hn] at hr
    rw [show pyUpper (sanitize_text ((some "").getD "Your Name")) = "" from by decide]
      at hr
    exact ⟨_, rest, hr⟩
  · intro hn he
    rw [hn, he] at hr
    rw [show pyUpper (sanitize_text ((none : Option String).getD "Your Name")) =
      "YOUR NAME" from by decide] at hr
    have hemail : sanitize_text ((none : Option String).getD "email@example.com") ++
        " | " ++ sanitize_text (doc.phone.getD "+91-XXXXXXXXXX") ++ " | " ++
        sanitize_text (doc.location.getD "City, Country") =
        "email@example.com | " ++ (sanitize_text (doc.phone.getD "+91-XXXXXXXXXX") ++
          (" | " ++ sanitize_text (doc.location.getD "City, Country"))) := by
      rw [show sanitize_text ((none : Option String).getD "email@example.com") =
          "email@example.com" from by decide]
      rw [String.append_assoc, String.append_assoc]
      rw [show ("email@example.com" ++ " | " : String) = "email@example.com | "
        from by decide]
    rw [hemail] at hr
    exact ⟨_, rest, hr⟩

/-- A document whose name and email keys hold empty strings (C9). -/
def docAllEmptyIdentity : ResumeData :=
  { name := some "", email := some "", phone := none, location := none,
    linkedin := none, portfolio := none, summary := "", education_list := [],
    technical_skills := "", soft_skills := "", experience_list := [],
    projects_list := [], certifications := "" }

/-- A document whose name and email keys are absent (C9). -/
def docNoNameEmail : ResumeData :=
  { name := none, email := none, phone := none, location := none,
    linkedin := none, portfolio := none, summary := "", education_list := [],
    technical_skills := "", soft_skills := "", experience_list := [],
    projects_list := [], certifications := "" }

/-- C9 witness: both branches discharged at concrete documents. -/
theorem claim_C9_witness :
    (∃ c rest, generateResumePdf docAllEmptyIdentity =
      Block.HeaderName "" :: Block.ContactLine c :: rest) ∧
    (∃ t rest, generateResumePdf docNoNameEmail =
      Block.HeaderName "YOUR NAME" ::
        Block.ContactLine ("email@example.com | " ++ t) :: rest) :=
  ⟨(claim_C9_renders_with_placeholders docAllEmptyIdentity).1 rfl rfl,
   (claim_C9_renders_with_placeholders docNoNameEmail).2 rfl rfl⟩

end SmartResume
